import Mathlib

/-!
Verification of the ADEPT user-key retrieval module (`ade_key.py`).

The file embeds the two platform paths of `retrieve_key`:
* the Windows path: entropy construction from `GetVolumeSerialNumber`,
  `cpuid0`, `cpuid1` and `GetUserName` (`struct.pack('>I12s3s13s', ...)`),
  the `CryptUnprotectData` unwrap, the registry walk over
  `Software\Adobe\Adept\Activation`, and the final base64 / CBC / trim
  pipeline `userkey[26:-ord(userkey[-1])]`;
* the Mac path: `ElementTree` text extraction at
  `//adept:credentials/adept:privateLicenseKey`, base64 decoding and the
  26-byte header drop.

Bytes are modelled as `Nat` (values < 256 in all concrete inputs), byte
strings as `List Nat`.  External OS and library facilities (registry,
`CryptUnprotectData`, the AES block primitive) enter as explicit data in a
`WinEnv` record.  Failures are modelled by `PyErr`: the `adept`
constructor stands for `ADEPTError(msg)`, the remaining constructors for
the other Python exception kinds that can escape `retrieve_key`.
-/

namespace AdeKey

/-- Failure kinds observable from `retrieve_key`.  `adept msg` is
`ADEPTError(msg)`; the others are ordinary Python exceptions that the
source does not catch: `attributeError` from `None.decode(...)`,
`binasciiError` from `str.decode('base64')` on malformed input,
`valueError` from a CBC decrypt on data whose length is not a multiple of
16, `indexError` from `userkey[-1]` on an empty buffer. -/
inductive PyErr where
  | adept (msg : String)
  | attributeError
  | binasciiError
  | valueError
  | indexError
deriving DecidableEq

/-- Does the error belong to the `ADEPTError` family? -/
def PyErr.isAdept : PyErr → Bool
  | .adept _ => true
  | _ => false

/-- Message of `raise ADEPTError("Couldn't load PyCrypto")` (line 197). -/
def pycryptoMsg : String := "Couldn\x27t load PyCrypto"

/-- Message of `raise ADEPTError("Adobe Digital Editions not activated")`
(line 208), raised when the `Device` registry key cannot be opened. -/
def deviceMsg : String := "Adobe Digital Editions not activated"

/-- Message of `raise ADEPTError("Failed to decrypt user key key (sic)")`
(line 190), raised when `CryptUnprotectData` fails. -/
def unprotectMsg : String := "Failed to decrypt user key key (sic)"

/-- Message of `raise ADEPTError("Could not locate ADE activation")`
(line 215), raised when the `Activation` registry root cannot be opened. -/
def adeRootMsg : String := "Could not locate ADE activation"

/-- Message of `raise ADEPTError('Could not locate privateLicenseKey')`
(line 237). -/
def plkMsg : String := "Could not locate privateLicenseKey"

/-! ### Entropy construction (`retrieve_key`, lines 198-203) -/

/-- Big-endian 4-byte packing of an unsigned 32-bit value:
`struct.pack('>I', n)`. -/
def packBE32 (n : Nat) : List Nat :=
  [n / 2 ^ 24 % 256, n / 2 ^ 16 % 256, n / 2 ^ 8 % 256, n % 256]

/-- The `struct` `Ns` conversion: a byte string truncated to `n` bytes or
zero-padded up to `n` bytes. -/
def packS (n : Nat) (s : List Nat) : List Nat :=
  s.take n ++ List.replicate (n - s.length) 0

/-- Recombine a big-endian byte list into its numeric value (used only in
statements, to relate `packBE32` back to the packed integer). -/
def beVal (l : List Nat) : Nat :=
  l.foldl (fun a b => a * 256 + b) 0

/-- Line 201: `signature = struct.pack('>I', cpuid1())[1:]` — the 4-byte
big-endian packing of the `cpuid` leaf-1 feature value with its first
(most significant) byte removed. -/
def featureSignature (f : Nat) : List Nat :=
  (packBE32 f).drop 1

/-- The feature signature as the specification describes it: the top 3
significant bytes of the 4-byte feature value (stated for comparison with
`featureSignature`, which is what the code computes). -/
def topThreeBytes (f : Nat) : List Nat :=
  (packBE32 f).take 3

/-- Line 203: `entropy = struct.pack('>I12s3s13s', serial, vendor,
signature, user)`. -/
def buildEntropy (serial : Nat) (vendor signature user : List Nat) : List Nat :=
  packBE32 serial ++ packS 12 vendor ++ packS 3 signature ++ packS 13 user

/-! ### Base64 decoding (`userkey.decode('base64')`, lines 238 and 281)

Modelled from the spec: the wrapped value is "base64-encoded" and the
decode step is Python's `str.decode('base64')` (`binascii.a2b_base64`),
a library facility outside this repository.  Characters outside the
base64 alphabet are skipped; a pad sequence ends the input; leftover bits
(an encoded length `≢ 0 (mod 4)` without the required padding) raise
`binascii.Error` ("Incorrect padding"). -/

/-- Value of a base64 alphabet character, `none` for non-alphabet input. -/
def b64val (c : Char) : Option Nat :=
  if 'A' ≤ c ∧ c ≤ 'Z' then some (c.toNat - 65)
  else if 'a' ≤ c ∧ c ≤ 'z' then some (c.toNat - 97 + 26)
  else if '0' ≤ c ∧ c ≤ '9' then some (c.toNat - 48 + 52)
  else if c = '+' then some 62
  else if c = '/' then some 63
  else none

/-- Turn a stream of 6-bit groups into bytes, emitting a byte whenever at
least 8 bits have accumulated. -/
def sextetsToBytes : List Nat → Nat → Nat → List Nat
  | [], _, _ => []
  | v :: vs, acc, nbits =>
    let acc2 := acc * 64 + v
    let n2 := nbits + 6
    if 8 ≤ n2 then
      acc2 / 2 ^ (n2 - 8) % 256 :: sextetsToBytes vs (acc2 % 2 ^ (n2 - 8)) (n2 - 8)
    else
      sextetsToBytes vs acc2 n2

/-- Base64 decoding; `none` models `binascii.Error`. -/
def b64decode (s : String) : Option (List Nat) :=
  let cs := s.data.filter (fun c => (b64val c).isSome || c == '=')
  let body := cs.takeWhile (fun c => c != '=')
  let pads := cs.length - body.length
  if body.length % 4 = 0
      ∨ (body.length % 4 = 2 ∧ 2 ≤ pads)
      ∨ (body.length % 4 = 3 ∧ 1 ≤ pads) then
    some (sextetsToBytes (body.filterMap b64val) 0 0)
  else
    none

/-! ### CBC decryption (`_aes.new(keykey, _aes.MODE_CBC).decrypt`, line 239)

Modelled from the spec: the decryption library (PyCrypto) is external.
The spec fixes the chaining: "decrypt with block-cipher CBC mode using
`kek` as key and an all-zero (or implicit) initialization vector".  The
per-block primitive (raw AES block decryption under the key-encryption
key) is a parameter `dec`. -/

/-- Bytewise xor of two equal-length byte strings. -/
def xorBytes (a b : List Nat) : List Nat :=
  List.zipWith (fun x y => x ^^^ y) a b

/-- CBC decryption chain: each plaintext block is the block-decrypted
ciphertext block xored with the previous ciphertext block.  The first
argument is fuel (one unit per 16-byte block; any fuel at least the
ciphertext length suffices, since every step consumes 16 bytes). -/
def cbcDecryptAux (dec : List Nat → List Nat) : Nat → List Nat → List Nat → List Nat
  | 0, _, _ => []
  | _, _, [] => []
  | fuel + 1, prev, c :: cs =>
    let blk := List.take 16 (c :: cs)
    xorBytes (dec blk) prev ++ cbcDecryptAux dec fuel blk (List.drop 16 (c :: cs))

/-- CBC decryption with the implicit all-zero IV. -/
def cbcDecrypt (dec : List Nat → List Nat) (ct : List Nat) : List Nat :=
  cbcDecryptAux dec ct.length (List.replicate 16 0) ct

/-- Specification-side helper: drop the final `n` bytes of a byte string
(clamped at the empty string, as Python slicing clamps). -/
def dropLastN (n : Nat) (l : List Nat) : List Nat :=
  l.take (l.length - n)

/-! ### Key unwrap and depad (lines 238-241) -/

/-- Lines 238-241:
`userkey = userkey.decode('base64')`;
`userkey = _aes.new(keykey, _aes.MODE_CBC).decrypt(userkey)`;
`userkey = userkey[26:-ord(userkey[-1])]`.
The slice end `-ord(userkey[-1])` is the Python literal: for a last byte
`n ≥ 1` the end index is `len - n`; for `n = 0` the end index is the
literal `0`, so the slice is empty.  `userkey[-1]` on an empty buffer
raises `IndexError`; a ciphertext whose length is not a multiple of 16
makes PyCrypto raise `ValueError`. -/
def finalize (dec : List Nat → List Nat) (wrapped : String) : Except PyErr (List Nat) :=
  match b64decode wrapped with
  | none => Except.error PyErr.binasciiError
  | some ct =>
    if ct.length % 16 = 0 then
      let p := cbcDecrypt dec ct
      match p.getLast? with
      | none => Except.error PyErr.indexError
      | some n => Except.ok ((p.take (if n = 0 then 0 else p.length - n)).drop 26)
    else
      Except.error PyErr.valueError

/-! ### The activation registry tree (lines 212-237)

A registry node carries its default value (the type tag read by
`winreg.QueryValueEx(k, None)`), its named value `'value'` (read for the
license-key leaf), and its children.  Children are addressed in the
source by the zero-padded decimal name `"%04d" % i`; the model indexes
them directly by the integer `i`.  `children i = none` models the
`WindowsError` from `winreg.OpenKey`, on which the enumeration loops
`break`. -/
inductive RegNode where
  | node (tag : String) (value : String) (children : Nat → Option RegNode)

/-- Type tag of a node (its registry default value). -/
def RegNode.tag : RegNode → String
  | .node t _ _ => t

/-- Named value `'value'` of a node. -/
def RegNode.value : RegNode → String
  | .node _ v _ => v

/-- Child of a node at integer index `i` (`winreg.OpenKey(k, "%04d" % i)`);
`none` when the open raises `WindowsError`. -/
def RegNode.children : RegNode → Nat → Option RegNode
  | .node _ _ c => c

/-- A node with no openable children. -/
def leafNode (tag value : String) : RegNode :=
  .node tag value (fun _ => none)

/-- A node whose children are the elements of a list, openable exactly at
indices below the list's length. -/
def listNode (tag value : String) (cs : List RegNode) : RegNode :=
  .node tag value (fun k => cs[k]?)

/-- Lines 224-233, the inner loop from index `j` with `fuel` iterations
remaining: open child `j` (`break` on failure), skip it unless its tag is
`'privateLicenseKey'`, otherwise take its `'value'` and stop. -/
def scanKeysFrom (parent : RegNode) : Nat → Nat → Option String
  | _, 0 => none
  | j, fuel + 1 =>
    match parent.children j with
    | none => none
    | some child =>
      if child.tag = "privateLicenseKey" then some child.value
      else scanKeysFrom parent (j + 1) fuel

/-- The inner loop `for j in xrange(0, 16)`. -/
def scanInner (parent : RegNode) : Option String :=
  scanKeysFrom parent 0 16

/-- Lines 216-235, the outer loop from index `i` with `fuel` iterations
remaining: open child `i` (`break` on failure), skip it unless its tag is
`'credentials'`, otherwise run the inner loop and stop as soon as it
produced a key. -/
def scanParentsFrom (root : RegNode) : Nat → Nat → Option String
  | _, 0 => none
  | i, fuel + 1 =>
    match root.children i with
    | none => none
    | some child =>
      if child.tag = "credentials" then
        match scanInner child with
        | some v => some v
        | none => scanParentsFrom root (i + 1) fuel
      else scanParentsFrom root (i + 1) fuel

/-- The outer loop `for i in xrange(0, 16)`. -/
def findLicenseKey (root : RegNode) : Option String :=
  scanParentsFrom root 0 16

/-- Lines 212-237: open the `Activation` root (`none` models the
`WindowsError`), walk the tree, and raise `ADEPTError` when the root is
missing or no license key was found. -/
def findLicenseKeyE (root : Option RegNode) : Except PyErr String :=
  match root with
  | none => Except.error (PyErr.adept adeRootMsg)
  | some r =>
    match findLicenseKey r with
    | none => Except.error (PyErr.adept plkMsg)
    | some v => Except.ok v

/-! ### The Windows `retrieve_key` (lines 195-241) -/

/-- The ambient Windows state read by `retrieve_key`: whether PyCrypto
imported (`_aes is None` check), the outputs of `GetVolumeSerialNumber`,
`cpuid0`, `cpuid1` and `GetUserName`, the `Device` registry value `'key'`
(`none` when the `OpenKey` raises), the `CryptUnprotectData` facility
(`none` result models its failure), the `Activation` registry root, and
the raw AES block-decryption primitive keyed by the unwrapped
key-encryption key. -/
structure WinEnv where
  aes : Bool
  volumeSerial : Nat
  vendor : List Nat
  feature : Nat
  user : List Nat
  deviceKey : Option (List Nat)
  unprotect : List Nat → List Nat → Option (List Nat)
  activationRoot : Option RegNode
  aesDec : List Nat → List Nat → List Nat

/-- The Windows `retrieve_key` (lines 195-241), composed exactly in source
order: PyCrypto availability check, entropy construction, `Device` key
read, `CryptUnprotectData`, activation-tree walk, then base64 / CBC /
trim. -/
def retrieveKeyWin (env : WinEnv) : Except PyErr (List Nat) :=
  if env.aes then
    let entropy := buildEntropy env.volumeSerial env.vendor
      (featureSignature env.feature) env.user
    match env.deviceKey with
    | none => Except.error (PyErr.adept deviceMsg)
    | some device =>
      match env.unprotect device entropy with
      | none => Except.error (PyErr.adept unprotectMsg)
      | some keykey =>
        match findLicenseKeyE env.activationRoot with
        | Except.error e => Except.error e
        | Except.ok wrapped => finalize (env.aesDec keykey) wrapped
  else
    Except.error (PyErr.adept pycryptoMsg)

/-! ### The Mac `retrieve_key` (lines 245-283)

The activation document is an element tree; `Xml.elem tag text children`
carries the fully qualified tag (ElementTree's `'{namespace}tag'` form),
the element's text content and its subelements in document order. -/

/-- An XML element as `xml.etree.ElementTree` presents it. -/
inductive Xml where
  | elem (tag : String) (text : Option String) (children : List Xml)

/-- Tag of an element. -/
def Xml.tag : Xml → String
  | .elem t _ _ => t

/-- Text content of an element (`None` when absent). -/
def Xml.text : Xml → Option String
  | .elem _ s _ => s

/-- Subelements in document order. -/
def Xml.children : Xml → List Xml
  | .elem _ _ c => c

mutual

/-- Strict descendants of an element in document (pre-)order. -/
def descendants : Xml → List Xml
  | .elem _ _ cs => descList cs

/-- Elements of a forest together with their strict descendants, in
document order. -/
def descList : List Xml → List Xml
  | [] => []
  | x :: xs => x :: (descendants x ++ descList xs)

end

/-- Line 278: the qualified tag `'{http://ns.adobe.com/adept}%s'`. -/
def adeptTag (t : String) : String :=
  "\x7b" ++ "http://ns.adobe.com/adept" ++ "\x7d" ++ t

/-- Lines 279-280: `tree.findtext('//adept:credentials/adept:privateLicenseKey')`.
Modelled from the spec: `ElementTree` is a library facility; on this
interpreter the leading `//` is rewritten to `.//`, so the selector takes
every strict descendant tagged `credentials` in document order, then each
one's children tagged `privateLicenseKey`, and yields the first matching
element's text (the empty string when the element has no text content),
or `None` when there is no match. -/
def findtextLicense (doc : Xml) : Option String :=
  let creds := (descendants doc).filter (fun e => e.tag == adeptTag "credentials")
  let leaves := creds.flatMap
    (fun e => e.children.filter (fun c => c.tag == adeptTag "privateLicenseKey"))
  leaves.head?.map (fun e => e.text.getD "")

/-- Lines 277-283: extract the license-key text, base64-decode it and drop
the first 26 bytes.  When `findtext` produced `None`, the next line
`userkey.decode('base64')` raises `AttributeError` (a `NoneType` has no
`decode` method); a malformed base64 text raises `binascii.Error`. -/
def recoverFromDocument (doc : Xml) : Except PyErr (List Nat) :=
  match findtextLicense doc with
  | none => Except.error PyErr.attributeError
  | some t =>
    match b64decode t with
    | none => Except.error PyErr.binasciiError
    | some bs => Except.ok (bs.drop 26)

/-! ### Concrete instances used by the witnesses and counterexamples -/

/-- Base64 encoding of 32 zero bytes (43 `'A'` characters and one pad). -/
def b64zeros32 : String :=
  String.mk (List.replicate 43 'A') ++ "="

/-- Base64 encoding of 48 zero bytes (64 `'A'` characters, no padding). -/
def b64zeros48 : String :=
  String.mk (List.replicate 64 'A')

/-- Base64 encoding of 27 bytes of value 65 (nine `QUFB` groups). -/
def b64bytes27 : String :=
  "QUFBQUFBQUFBQUFBQUFBQUFBQUFBQUFBQUFB"

/-- Synthetic activation tree from the specification's test: the only
credentials node sits at depth-1 index 3 (indices 0-3 openable) and the
license-key leaf at depth-2 index 7 (indices 0-7 openable). -/
def wTreeC2 : RegNode :=
  listNode "" ""
    [leafNode "other" "", leafNode "other" "", leafNode "other" "",
     listNode "credentials" ""
       [leafNode "x" "", leafNode "x" "", leafNode "x" "", leafNode "x" "",
        leafNode "x" "", leafNode "x" "", leafNode "x" "",
        leafNode "privateLicenseKey" "SECRET"]]

/-- Synthetic activation tree with two credentials nodes: the first (index
0) has no license-key leaf, the second (index 2) holds one at index 1. -/
def wTreeC10 : RegNode :=
  listNode "" ""
    [listNode "credentials" "" [leafNode "x" ""],
     leafNode "other" "",
     listNode "credentials" ""
       [leafNode "y" "", leafNode "privateLicenseKey" "KEY2"]]

/-- A root node with zero openable children. -/
def emptyRootC5 : RegNode :=
  leafNode "root" ""

/-- A service-information element of the minimal activation document. -/
def svcEl : Xml :=
  .elem (adeptTag "activationServiceInfo") (some "svc") []

/-- The user element of the minimal activation document. -/
def userEl : Xml :=
  .elem (adeptTag "user") (some "urn:uuid:u") []

/-- The license-key element of the minimal activation document. -/
def plkEl : Xml :=
  .elem (adeptTag "privateLicenseKey") (some b64bytes27) []

/-- The credentials element of the minimal activation document. -/
def credEl : Xml :=
  .elem (adeptTag "credentials") none [userEl, plkEl]

/-- A minimal well-formed activation document: an `activationInfo` root
holding a `credentials` element whose `privateLicenseKey` child carries
base64 text. -/
def wDocC6 : Xml :=
  .elem (adeptTag "activationInfo") none [svcEl, credEl]

/-- An activation document whose `credentials` element has no
`privateLicenseKey` child. -/
def wDocC7 : Xml :=
  .elem (adeptTag "activationInfo") none
    [.elem (adeptTag "credentials") none
       [.elem (adeptTag "user") (some "u") []]]

/-- A Windows state in which every OS facility succeeds but the stored
license-key value is the single character `"A"`, which is not decodable
base64 (one leftover 6-bit group). -/
def envStoredBad : WinEnv :=
  ⟨true, 0, [], 0, [], some [],
   fun _ _ => some (List.replicate 16 0),
   some (listNode "" "" [listNode "credentials" "" [leafNode "privateLicenseKey" "A"]]),
   fun _ b => b⟩

/-- A Windows state in which the PyCrypto import failed and every other
facility is also in a failing state. -/
def envNoAes : WinEnv :=
  ⟨false, 0, [], 0, [], none, fun _ _ => none, none, fun _ b => b⟩

/-! ## Helper lemmas -/

theorem packS_length (n : Nat) (s : List Nat) : (packS n s).length = n := by
  simp only [packS, List.length_append, List.length_take, List.length_replicate]
  omega

theorem packBE32_length (n : Nat) : (packBE32 n).length = 4 := rfl

theorem dropLastN_length (n : Nat) (l : List Nat) :
    (dropLastN n l).length = l.length - n := by
  simp only [dropLastN, List.length_take]
  omega

/-- The source's slice `p[26:-n]` for `n ≥ 1` drops the first 26 bytes and
the final `n` bytes: it equals `dropLastN n` of the header-stripped
buffer. -/
theorem trim_eq_dropLastN (p : List Nat) (n : Nat) :
    (p.take (p.length - n)).drop 26 = dropLastN n (p.drop 26) := by
  rw [dropLastN, List.length_drop, List.drop_take]
  congr 1
  omega

/-- The final trimming pipeline never raises an `ADEPTError`: its failure
modes are `binascii.Error`, `ValueError` and `IndexError`. -/
theorem finalize_not_adept (dec : List Nat → List Nat) (w m : String) :
    finalize dec w ≠ Except.error (PyErr.adept m) := by
  unfold finalize
  cases b64decode w with
  | none => simp
  | some ct =>
    by_cases hl : ct.length % 16 = 0
    · simp only [hl, if_true]
      cases (cbcDecrypt dec ct).getLast? <;> simp
    · simp [hl]

/-- The inner loop returns nothing when no openable child in its index
window is tagged `privateLicenseKey`. -/
theorem scanKeysFrom_none (parent : RegNode) :
    ∀ (fuel a : Nat),
    (∀ k d, a ≤ k → k < a + fuel → parent.children k = some d →
        d.tag ≠ "privateLicenseKey") →
    scanKeysFrom parent a fuel = none := by
  intro fuel
  induction fuel with
  | zero => intro a _; rfl
  | succ fuel ih =>
    intro a h
    cases hc : parent.children a with
    | none => simp [scanKeysFrom, hc]
    | some d =>
      have hd := h a d (Nat.le_refl a) (by omega) hc
      simp only [scanKeysFrom, hc]
      rw [if_neg hd]
      exact ih (a + 1) (fun k d hk1 hk2 hkd => h k d (by omega) (by omega) hkd)

/-- The inner loop finds the first openable child tagged
`privateLicenseKey` when every earlier index in its window opens to a
differently tagged child. -/
theorem scanKeysFrom_finds (parent leaf : RegNode)
    (hlt : leaf.tag = "privateLicenseKey") :
    ∀ (fuel a j : Nat), a ≤ j → j < a + fuel →
    (∀ k, a ≤ k → k < j → ∃ d, parent.children k = some d ∧
        d.tag ≠ "privateLicenseKey") →
    parent.children j = some leaf →
    scanKeysFrom parent a fuel = some leaf.value := by
  intro fuel
  induction fuel with
  | zero => intro a j h1 h2 _ _; omega
  | succ fuel ih =>
    intro a j h1 h2 hskip hj
    by_cases haj : a = j
    · subst haj
      simp [scanKeysFrom, hj, hlt]
    · obtain ⟨d, hd, hdt⟩ := hskip a (Nat.le_refl a) (by omega)
      simp only [scanKeysFrom, hd]
      rw [if_neg hdt]
      exact ih (a + 1) j (by omega) (by omega)
        (fun k hk1 hk2 => hskip k (by omega) hk2) hj

/-- The outer loop returns nothing when every openable child in its index
window is either not tagged `credentials` or has an empty inner scan. -/
theorem scanParentsFrom_none (root : RegNode) :
    ∀ (fuel a : Nat),
    (∀ k c, a ≤ k → k < a + fuel → root.children k = some c →
        c.tag ≠ "credentials" ∨ scanInner c = none) →
    scanParentsFrom root a fuel = none := by
  intro fuel
  induction fuel with
  | zero => intro a _; rfl
  | succ fuel ih =>
    intro a h
    cases hc : root.children a with
    | none => simp [scanParentsFrom, hc]
    | some c =>
      have hrec := ih (a + 1) (fun k c hk1 hk2 hkc => h k c (by omega) (by omega) hkc)
      rcases h a c (Nat.le_refl a) (by omega) hc with hne | hnone
      · simp only [scanParentsFrom, hc]
        rw [if_neg hne]
        exact hrec
      · by_cases htag : c.tag = "credentials"
        · simp only [scanParentsFrom, hc]
          rw [if_pos htag, hnone]
          exact hrec
        · simp only [scanParentsFrom, hc]
          rw [if_neg htag]
          exact hrec

/-- The outer loop returns nothing once it reaches an unopenable index,
whatever lies beyond it, provided no earlier index matched. -/
theorem scanParentsFrom_gap (root : RegNode) :
    ∀ (fuel a g : Nat), a ≤ g → g < a + fuel → root.children g = none →
    (∀ k c, a ≤ k → k < g → root.children k = some c →
        c.tag ≠ "credentials" ∨ scanInner c = none) →
    scanParentsFrom root a fuel = none := by
  intro fuel
  induction fuel with
  | zero => intro a g h1 h2 _ _; omega
  | succ fuel ih =>
    intro a g h1 h2 hg hskip
    by_cases hag : a = g
    · subst hag
      simp [scanParentsFrom, hg]
    · have hrec : scanParentsFrom root (a + 1) fuel = none :=
        ih (a + 1) g (by omega) (by omega) hg
          (fun k c hk1 hk2 hkc => hskip k c (by omega) hk2 hkc)
      cases hc : root.children a with
      | none => simp [scanParentsFrom, hc]
      | some c =>
        rcases hskip a c (Nat.le_refl a) (by omega) hc with hne | hnone
        · simp only [scanParentsFrom, hc]
          rw [if_neg hne]
          exact hrec
        · by_cases htag : c.tag = "credentials"
          · simp only [scanParentsFrom, hc]
            rw [if_pos htag, hnone]
            exact hrec
          · simp only [scanParentsFrom, hc]
            rw [if_neg htag]
            exact hrec

/-- The outer loop returns the inner result of the first openable child
tagged `credentials` whose inner scan succeeds, when every earlier index
in its window opens to a child that is either differently tagged or has
an empty inner scan. -/
theorem scanParentsFrom_finds (root cred : RegNode) (v : String)
    (hct : cred.tag = "credentials") (hin : scanInner cred = some v) :
    ∀ (fuel a i : Nat), a ≤ i → i < a + fuel →
    (∀ k, a ≤ k → k < i → ∃ c, root.children k = some c ∧
        (c.tag ≠ "credentials" ∨ scanInner c = none)) →
    root.children i = some cred →
    scanParentsFrom root a fuel = some v := by
  intro fuel
  induction fuel with
  | zero => intro a i h1 h2 _ _; omega
  | succ fuel ih =>
    intro a i h1 h2 hskip hi
    by_cases hai : a = i
    · subst hai
      simp only [scanParentsFrom, hi]
      rw [if_pos hct, hin]
    · have hrec : scanParentsFrom root (a + 1) fuel = some v :=
        ih (a + 1) i (by omega) (by omega)
          (fun k hk1 hk2 => hskip k (by omega) hk2) hi
      obtain ⟨c, hc, hcs⟩ := hskip a (Nat.le_refl a) (by omega)
      rcases hcs with hne | hnone
      · simp only [scanParentsFrom, hc]
        rw [if_neg hne]
        exact hrec
      · by_cases htag : c.tag = "credentials"
        · simp only [scanParentsFrom, hc]
          rw [if_pos htag, hnone]
          exact hrec
        · simp only [scanParentsFrom, hc]
          rw [if_neg htag]
          exact hrec

/-- Elements of a list whose members are all equal to `a` start with `a`
when the list contains `a`. -/
theorem head?_of_mem_of_all_eq {α : Type} (l : List α) (a : α)
    (hmem : a ∈ l) (hall : ∀ x ∈ l, x = a) : l.head? = some a := by
  cases l with
  | nil => cases hmem
  | cons x xs => simpa using hall x (List.mem_cons_self x xs)

/-! ## Claim theorems -/

/-- C1, counterexample to the claim as stated: for the wrapped value
decoding to 32 zero bytes and a block primitive returning zero blocks,
the decrypted buffer is 32 zero bytes, its last byte is 0, and `finalize`
returns the empty byte string — while dropping the first 26 bytes and the
final `N = 0` bytes, as the claim prescribes for every buffer, would give
the 6 remaining zero bytes. -/
theorem C1_counterexample :
    finalize (fun _ => List.replicate 16 0) b64zeros32 = Except.ok [] ∧
    (cbcDecrypt (fun _ => List.replicate 16 0) (List.replicate 32 0)).getLast?
      = some 0 ∧
    dropLastN 0
        ((cbcDecrypt (fun _ => List.replicate 16 0) (List.replicate 32 0)).drop 26)
      = List.replicate 6 0 ∧
    (List.replicate 6 (0 : Nat) == ([] : List Nat)) = false :=
  ⟨rfl, by decide, by decide, by decide⟩

/-- C1 (amended): for every key-encryption key (entering through the block
primitive `dec`) and base64-encoded wrapped value, `finalize`
base64-decodes the value, CBC-decrypts it with the key under the implicit
all-zero IV, drops the first 26 bytes of the plaintext, and — provided
the last byte `n` is at least 1 — drops the final `n` bytes; when the
last byte is 0 the result is empty instead.  In particular a final byte
1 yields a result one byte shorter than the header-stripped buffer, and
a final byte 16 on a 16-byte header-stripped buffer removes that whole
block. -/
theorem C1_unwrap_depad (dec : List Nat → List Nat) (wrapped : String)
    (ct : List Nat) (n : Nat)
    (hb : b64decode wrapped = some ct) (hlen : ct.length % 16 = 0)
    (hlast : (cbcDecrypt dec ct).getLast? = some n) (hn : 1 ≤ n) :
    finalize dec wrapped
      = Except.ok (dropLastN n ((cbcDecrypt dec ct).drop 26)) ∧
    (n = 1 → (dropLastN n ((cbcDecrypt dec ct).drop 26)).length
      = ((cbcDecrypt dec ct).drop 26).length - 1) ∧
    (((cbcDecrypt dec ct).drop 26).length = 16 → n = 16 →
      dropLastN n ((cbcDecrypt dec ct).drop 26) = []) := by
  refine ⟨?_, ?_, ?_⟩
  · unfold finalize
    rw [hb]
    simp only [hlen, if_true]
    rw [hlast]
    simp only []
    rw [if_neg (by omega)]
    exact congrArg Except.ok (trim_eq_dropLastN _ n)
  · intro h1
    rw [dropLastN_length]
    omega
  · intro hq h16
    subst h16
    rw [dropLastN, hq, Nat.sub_self, List.take_zero]

/-- C1 witness at a concrete input: the wrapped value decodes to 16 zero
bytes, the block primitive returns a block of 16 ones, so the plaintext
is 16 ones with last byte 1, and the result drops the header and one
final byte. -/
theorem C1_unwrap_depad_witness :
    finalize (fun _ => List.replicate 16 1) "AAAAAAAAAAAAAAAAAAAAAA=="
      = Except.ok (dropLastN 1
          ((cbcDecrypt (fun _ => List.replicate 16 1)
            (List.replicate 16 0)).drop 26)) :=
  (C1_unwrap_depad (fun _ => List.replicate 16 1) "AAAAAAAAAAAAAAAAAAAAAA=="
    (List.replicate 16 0) 1 (by decide) (by decide) (by decide) (by decide)).1

/-- C9: for every decrypted buffer whose final byte equals 0, `finalize`
returns the empty byte string: the Python slice end index `-0` is the
literal 0 and collapses the result. -/
theorem C9_zero_pad (dec : List Nat → List Nat) (wrapped : String)
    (ct : List Nat)
    (hb : b64decode wrapped = some ct) (hlen : ct.length % 16 = 0)
    (hlast : (cbcDecrypt dec ct).getLast? = some 0) :
    finalize dec wrapped = Except.ok [] := by
  unfold finalize
  rw [hb]
  simp only [hlen, if_true]
  rw [hlast]
  simp

/-- C9 witness: the wrapped value decodes to 48 zero bytes, the block
primitive returns zero blocks, so the decrypted buffer is 48 zero bytes
ending in 0; `finalize` returns the empty string although the
header-stripped buffer still has 22 bytes. -/
theorem C9_zero_pad_witness :
    finalize (fun _ => List.replicate 16 0) b64zeros48 = Except.ok [] ∧
    ((cbcDecrypt (fun _ => List.replicate 16 0)
      (List.replicate 48 0)).drop 26).length = 22 :=
  ⟨C9_zero_pad (fun _ => List.replicate 16 0) b64zeros48
    (List.replicate 48 0) (by decide) (by decide) (by decide), by decide⟩

/-- C3: the entropy buffer is exactly the 32-byte fixed-layout
concatenation of the volume serial packed as a 4-byte big-endian unsigned
integer, the 12-byte vendor signature, the 3-byte feature signature, and
the user name truncated or zero-padded to 13 bytes, in that order. -/
theorem C3_entropy_layout (serial : Nat) (vendor sig user : List Nat)
    (hs : serial < 2 ^ 32) :
    (buildEntropy serial vendor sig user).length = 32 ∧
    (buildEntropy serial vendor sig user).take 4 = packBE32 serial ∧
    beVal (packBE32 serial) = serial ∧
    ((buildEntropy serial vendor sig user).drop 4).take 12 = packS 12 vendor ∧
    ((buildEntropy serial vendor sig user).drop 16).take 3 = packS 3 sig ∧
    (buildEntropy serial vendor sig user).drop 19 = packS 13 user ∧
    (packS 12 vendor).length = 12 ∧ (packS 3 sig).length = 3 ∧
    (packS 13 user).length = 13 := by
  have h4 : (packBE32 serial).length = 4 := packBE32_length serial
  have h12 : (packS 12 vendor).length = 12 := packS_length 12 vendor
  have h3 : (packS 3 sig).length = 3 := packS_length 3 sig
  have h13 : (packS 13 user).length = 13 := packS_length 13 user
  have hE1 : buildEntropy serial vendor sig user
      = packBE32 serial ++ (packS 12 vendor ++ (packS 3 sig ++ packS 13 user)) := by
    simp [buildEntropy, List.append_assoc]
  have hE2 : buildEntropy serial vendor sig user
      = (packBE32 serial ++ packS 12 vendor) ++ (packS 3 sig ++ packS 13 user) := by
    simp [buildEntropy, List.append_assoc]
  have hE3 : buildEntropy serial vendor sig user
      = ((packBE32 serial ++ packS 12 vendor) ++ packS 3 sig) ++ packS 13 user := by
    simp [buildEntropy, List.append_assoc]
  have hdrop4 : (buildEntropy serial vendor sig user).drop 4
      = packS 12 vendor ++ (packS 3 sig ++ packS 13 user) := by
    rw [hE1]
    exact List.drop_left' h4
  have hdrop16 : (buildEntropy serial vendor sig user).drop 16
      = packS 3 sig ++ packS 13 user := by
    rw [hE2]
    exact List.drop_left' (by rw [List.length_append, h4, h12])
  have hdrop19 : (buildEntropy serial vendor sig user).drop 19
      = packS 13 user := by
    rw [hE3]
    exact List.drop_left'
      (by rw [List.length_append, List.length_append, h4, h12, h3])
  have htake4 : (buildEntropy serial vendor sig user).take 4 = packBE32 serial := by
    rw [hE1]
    exact List.take_left' h4
  refine ⟨?_, htake4, ?_, ?_, ?_, hdrop19, h12, h3, h13⟩
  · rw [hE1]
    simp only [List.length_append, h4, h12, h3, h13]
  · norm_num [beVal, packBE32, List.foldl]
    omega
  · rw [hdrop4]
    exact List.take_left' h12
  · rw [hdrop16]
    exact List.take_left' h3

/-- C3 witness at a concrete input. -/
theorem C3_entropy_layout_witness :
    (buildEntropy 305419896 [1, 2] [3] [4, 5]).length = 32 :=
  (C3_entropy_layout 305419896 [1, 2] [3] [4, 5] (by norm_num)).1

/-- C4, counterexample to the claim as stated: for the feature value
0x01020304 the code's signature is the three least significant bytes
`[2, 3, 4]`, not the top three significant bytes `[1, 2, 3]`. -/
theorem C4_counterexample :
    featureSignature 16909060 = [2, 3, 4] ∧
    topThreeBytes 16909060 = [1, 2, 3] ∧
    (featureSignature 16909060 == topThreeBytes 16909060) = false := by
  refine ⟨?_, ?_, ?_⟩ <;> decide

/-- C4 (amended): the feature signature contributed to the entropy buffer
consists of the three least significant bytes of the 4-byte feature value
returned by the identification instruction with input selector 1 (the
big-endian packing with its most significant byte dropped). -/
theorem C4_feature_low_bytes (f : Nat) :
    featureSignature f = [f / 2 ^ 16 % 256, f / 2 ^ 8 % 256, f % 256] ∧
    (featureSignature f).length = 3 ∧
    beVal (featureSignature f) = f % 2 ^ 24 := by
  refine ⟨rfl, rfl, ?_⟩
  norm_num [beVal, featureSignature, packBE32, List.foldl]
  omega

/-- C2: the walk returns the value of the first leaf tagged
`privateLicenseKey` in index order — depth-1 index ascending, then
depth-2 index ascending within the matching depth-1 node — and does not
continue scanning siblings after a match: nodes at indices beyond `i`
(respectively `j`) are entirely unconstrained. -/
theorem C2_walker_first_match (root cred leaf : RegNode) (i j : Nat)
    (hi : i < 16) (hj : j < 16)
    (hskip1 : ∀ k, k < i → ∃ c, root.children k = some c ∧
        c.tag ≠ "credentials")
    (hcred : root.children i = some cred) (hct : cred.tag = "credentials")
    (hskip2 : ∀ k, k < j → ∃ d, cred.children k = some d ∧
        d.tag ≠ "privateLicenseKey")
    (hleaf : cred.children j = some leaf)
    (hlt : leaf.tag = "privateLicenseKey") :
    findLicenseKeyE (some root) = Except.ok leaf.value := by
  have hin : scanInner cred = some leaf.value :=
    scanKeysFrom_finds cred leaf hlt 16 0 j (Nat.zero_le j) (by omega)
      (fun k _ hk2 => hskip2 k hk2) hleaf
  have hfind : findLicenseKey root = some leaf.value :=
    scanParentsFrom_finds root cred leaf.value hct hin 16 0 i (Nat.zero_le i)
      (by omega)
      (fun k _ hk2 =>
        let ⟨c, hc, hne⟩ := hskip1 k hk2
        ⟨c, hc, Or.inl hne⟩)
      hcred
  simp [findLicenseKeyE, hfind]

/-- C2 witness: the specification's synthetic tree, credentials node at
depth-1 index 3 and license-key leaf at depth-2 index 7; the walk returns
that leaf's named value. -/
theorem C2_walker_first_match_witness :
    findLicenseKeyE (some wTreeC2) = Except.ok "SECRET" :=
  C2_walker_first_match wTreeC2
    (listNode "credentials" ""
      [leafNode "x" "", leafNode "x" "", leafNode "x" "", leafNode "x" "",
       leafNode "x" "", leafNode "x" "", leafNode "x" "",
       leafNode "privateLicenseKey" "SECRET"])
    (leafNode "privateLicenseKey" "SECRET") 3 7
    (by omega) (by omega)
    (by
      intro k hk
      interval_cases k <;> exact ⟨leafNode "other" "", rfl, by decide⟩)
    rfl rfl
    (by
      intro k hk
      interval_cases k <;> exact ⟨leafNode "x" "", rfl, by decide⟩)
    rfl rfl

/-- C5: the walk fails with `ADEPTError` when the `Activation` root cannot
be opened; it fails with the `privateLicenseKey` `ADEPTError` for an
empty root (zero children, nothing beyond index 0 is examined), when no
openable child within the 16-index windows leads to a `privateLicenseKey`
leaf, and when an unopenable index cuts the enumeration short before any
match. -/
theorem C5_walker_errors :
    findLicenseKeyE none = Except.error (PyErr.adept adeRootMsg) ∧
    (∀ root : RegNode, root.children 0 = none →
        findLicenseKeyE (some root) = Except.error (PyErr.adept plkMsg)) ∧
    (∀ root : RegNode,
        (∀ k c, k < 16 → root.children k = some c →
            c.tag ≠ "credentials" ∨
            (∀ l d, l < 16 → c.children l = some d →
                d.tag ≠ "privateLicenseKey")) →
        findLicenseKeyE (some root) = Except.error (PyErr.adept plkMsg)) ∧
    (∀ (root : RegNode) (g : Nat), g < 16 → root.children g = none →
        (∀ k c, k < g → root.children k = some c → c.tag ≠ "credentials") →
        findLicenseKeyE (some root) = Except.error (PyErr.adept plkMsg)) := by
  refine ⟨rfl, ?_, ?_, ?_⟩
  · intro root h0
    have : scanParentsFrom root 0 16 = none :=
      scanParentsFrom_gap root 16 0 0 (Nat.le_refl 0) (by omega) h0
        (fun k c hk1 hk2 _ => by omega)
    simp [findLicenseKeyE, findLicenseKey, this]
  · intro root h
    have : scanParentsFrom root 0 16 = none :=
      scanParentsFrom_none root 16 0
        (fun k c _ hk2 hkc =>
          (h k c (by omega) hkc).imp id
            (fun hnol => scanKeysFrom_none c 16 0
              (fun l d _ hl2 hld => hnol l d (by omega) hld)))
    simp [findLicenseKeyE, findLicenseKey, this]
  · intro root g hg hgap hpre
    have : scanParentsFrom root 0 16 = none :=
      scanParentsFrom_gap root 16 0 g (Nat.zero_le g) (by omega) hgap
        (fun k c _ hk2 hkc => Or.inl (hpre k c hk2 hkc))
    simp [findLicenseKeyE, findLicenseKey, this]

/-- C5 witness: the walk on an empty root (no openable children) fails
with the `privateLicenseKey` error. -/
theorem C5_walker_errors_witness :
    findLicenseKeyE (some emptyRootC5) = Except.error (PyErr.adept plkMsg) :=
  C5_walker_errors.2.1 emptyRootC5 rfl

/-- C10: when an earlier `credentials` node has no `privateLicenseKey`
leaf among its openable children, the walk continues with later depth-1
siblings and returns the license-key leaf found under a later
`credentials` node. -/
theorem C10_walker_continues (root c1 cred leaf : RegNode) (i1 i2 j : Nat)
    (_h12 : i1 < i2) (hi2 : i2 < 16) (hj : j < 16)
    (hskip1 : ∀ k, k < i2 → k ≠ i1 → ∃ c, root.children k = some c ∧
        c.tag ≠ "credentials")
    (hc1 : root.children i1 = some c1) (_hc1t : c1.tag = "credentials")
    (hc1empty : ∀ k d, k < 16 → c1.children k = some d →
        d.tag ≠ "privateLicenseKey")
    (hcred : root.children i2 = some cred) (hct : cred.tag = "credentials")
    (hskip2 : ∀ k, k < j → ∃ d, cred.children k = some d ∧
        d.tag ≠ "privateLicenseKey")
    (hleaf : cred.children j = some leaf)
    (hlt : leaf.tag = "privateLicenseKey") :
    findLicenseKeyE (some root) = Except.ok leaf.value := by
  have hc1none : scanInner c1 = none :=
    scanKeysFrom_none c1 16 0 (fun k d _ hk2 hkd => hc1empty k d (by omega) hkd)
  have hin : scanInner cred = some leaf.value :=
    scanKeysFrom_finds cred leaf hlt 16 0 j (Nat.zero_le j) (by omega)
      (fun k _ hk2 => hskip2 k hk2) hleaf
  have hfind : findLicenseKey root = some leaf.value :=
    scanParentsFrom_finds root cred leaf.value hct hin 16 0 i2 (Nat.zero_le i2)
      (by omega)
      (fun k _ hk2 =>
        if hk : k = i1 then
          ⟨c1, hk ▸ hc1, Or.inr hc1none⟩
        else
          let ⟨c, hc, hne⟩ := hskip1 k hk2 hk
          ⟨c, hc, Or.inl hne⟩)
      hcred
  simp [findLicenseKeyE, hfind]

/-- C10 witness: a tree whose first credentials node (index 0) has no
license-key leaf; the walk returns the leaf under the credentials node at
index 2. -/
theorem C10_walker_continues_witness :
    findLicenseKeyE (some wTreeC10) = Except.ok "KEY2" :=
  C10_walker_continues wTreeC10
    (listNode "credentials" "" [leafNode "x" ""])
    (listNode "credentials" "" [leafNode "y" "", leafNode "privateLicenseKey" "KEY2"])
    (leafNode "privateLicenseKey" "KEY2") 0 2 1
    (by omega) (by omega) (by omega)
    (by
      intro k hk hk0
      interval_cases k
      · omega
      · exact ⟨leafNode "other" "", rfl, by decide⟩)
    rfl rfl
    (by
      intro k d hk hkd
      interval_cases k
      · injection hkd with h
        subst h
        decide
      all_goals simp [listNode, RegNode.children] at hkd)
    rfl rfl
    (by
      intro k hk
      interval_cases k
      exact ⟨leafNode "y" "", rfl, by decide⟩)
    rfl rfl

/-- C6: for every well-formed activation document whose (unique)
credentials element holds a (unique) `privateLicenseKey` child with text
`T`, recovery returns the base64 decoding of `T` with its first 26 bytes
dropped and the remainder unmodified — no trailing-padding removal is
applied on this path. -/
theorem C6_document_recovery (doc cred leaf : Xml) (T : String) (bs : List Nat)
    (hcmem : cred ∈ descendants doc)
    (hct : cred.tag = adeptTag "credentials")
    (hcuniq : ∀ e ∈ descendants doc, e.tag = adeptTag "credentials" → e = cred)
    (hlmem : leaf ∈ cred.children)
    (hlt : leaf.tag = adeptTag "privateLicenseKey")
    (hluniq : ∀ c ∈ cred.children,
        c.tag = adeptTag "privateLicenseKey" → c = leaf)
    (htext : leaf.text = some T) (hb : b64decode T = some bs) :
    recoverFromDocument doc = Except.ok (bs.drop 26) := by
  have hcall : ∀ x ∈ (descendants doc).filter
      (fun e => e.tag == adeptTag "credentials"), x = cred := by
    intro x hx
    rw [List.mem_filter] at hx
    exact hcuniq x hx.1 (by simpa using hx.2)
  have hcmem' : cred ∈ (descendants doc).filter
      (fun e => e.tag == adeptTag "credentials") := by
    rw [List.mem_filter]
    exact ⟨hcmem, by simpa using hct⟩
  obtain ⟨tl, htl⟩ : ∃ tl, (descendants doc).filter
      (fun e => e.tag == adeptTag "credentials") = cred :: tl := by
    cases hc : (descendants doc).filter
        (fun e => e.tag == adeptTag "credentials") with
    | nil => rw [hc] at hcmem'; cases hcmem'
    | cons y ys =>
      have hy : y = cred := hcall y (hc ▸ List.mem_cons_self y ys)
      exact ⟨ys, by rw [hy]⟩
  have hlall : ∀ x ∈ cred.children.filter
      (fun c => c.tag == adeptTag "privateLicenseKey"), x = leaf := by
    intro x hx
    rw [List.mem_filter] at hx
    exact hluniq x hx.1 (by simpa using hx.2)
  have hlmem' : leaf ∈ cred.children.filter
      (fun c => c.tag == adeptTag "privateLicenseKey") := by
    rw [List.mem_filter]
    exact ⟨hlmem, by simpa using hlt⟩
  obtain ⟨tl2, htl2⟩ : ∃ tl2, cred.children.filter
      (fun c => c.tag == adeptTag "privateLicenseKey") = leaf :: tl2 := by
    cases hc : cred.children.filter
        (fun c => c.tag == adeptTag "privateLicenseKey") with
    | nil => rw [hc] at hlmem'; cases hlmem'
    | cons y ys =>
      have hy : y = leaf := hlall y (hc ▸ List.mem_cons_self y ys)
      exact ⟨ys, by rw [hy]⟩
  have hft : findtextLicense doc = some T := by
    unfold findtextLicense
    simp [htl, htl2, htext]
  unfold recoverFromDocument
  rw [hft]
  simp [hb]

/-- C6 witness: the minimal activation document whose license-key text is
the base64 encoding of 27 bytes of value 65; recovery returns those bytes
with the first 26 dropped. -/
theorem C6_document_recovery_witness :
    recoverFromDocument wDocC6 = Except.ok ((List.replicate 27 65).drop 26) :=
  C6_document_recovery wDocC6 credEl plkEl b64bytes27 (List.replicate 27 65)
    (by
      rw [show descendants wDocC6 = [svcEl, credEl, userEl, plkEl] from rfl]
      simp)
    rfl
    (by
      intro e he htag
      rw [show descendants wDocC6 = [svcEl, credEl, userEl, plkEl] from rfl] at he
      simp only [List.mem_cons, List.not_mem_nil, or_false] at he
      rcases he with rfl | rfl | rfl | rfl
      · exact absurd htag (by decide)
      · rfl
      · exact absurd htag (by decide)
      · exact absurd htag (by decide))
    (by
      rw [show credEl.children = [userEl, plkEl] from rfl]
      simp)
    rfl
    (by
      intro c hc htag
      rw [show credEl.children = [userEl, plkEl] from rfl] at hc
      simp only [List.mem_cons, List.not_mem_nil, or_false] at hc
      rcases hc with rfl | rfl
      · exact absurd htag (by decide)
      · rfl)
    rfl
    (by decide)

/-- C7: for the activation document whose credentials element has no
`privateLicenseKey` child, recovery fails — but with `AttributeError`
(`findtext` returned `None` and `None.decode('base64')` has no such
attribute), not with a member of the `ADEPTError` family as the
specification requires. -/
theorem C7_missing_key_not_adept :
    recoverFromDocument wDocC7 = Except.error PyErr.attributeError ∧
    PyErr.attributeError.isAdept = false :=
  ⟨rfl, rfl⟩

/-- The walk step raises only its two fixed `ADEPTError` kinds. -/
theorem findLicenseKeyE_error (root : Option RegNode) (e : PyErr)
    (h : findLicenseKeyE root = Except.error e) :
    e = PyErr.adept adeRootMsg ∨ e = PyErr.adept plkMsg := by
  unfold findLicenseKeyE at h
  repeat' split at h
  all_goals simp_all

/-- C8, counterexample to the claim as stated: a Windows state in which
every OS facility succeeds but the stored license-key value is not valid
base64 makes `retrieve_key` fail with `binascii.Error`, which is not a
member of the `ADEPTError` family. -/
theorem C8_counterexample :
    retrieveKeyWin envStoredBad = Except.error PyErr.binasciiError ∧
    PyErr.binasciiError.isAdept = false :=
  ⟨rfl, rfl⟩

/-- C8 (amended): when the PyCrypto import failed, `retrieve_key` fails
with the fixed `ADEPTError` message regardless of every other system
facility — the check precedes all hardware probing, registry access and
unwrapping; and every `ADEPTError` the function can raise carries one of
the five fixed messages with no further payload.  Failures while
post-processing the stored value (malformed base64, bad ciphertext
length, empty plaintext) escape the family, as the counterexample
shows. -/
theorem C8_error_family :
    (∀ env : WinEnv, env.aes = false →
        retrieveKeyWin env = Except.error (PyErr.adept pycryptoMsg)) ∧
    (∀ (env : WinEnv) (m : String),
        retrieveKeyWin env = Except.error (PyErr.adept m) →
        m = pycryptoMsg ∨ m = deviceMsg ∨ m = unprotectMsg ∨
        m = adeRootMsg ∨ m = plkMsg) := by
  constructor
  · intro env h
    simp [retrieveKeyWin, h]
  · intro env m h
    obtain ⟨aes, vs, vend, feat, usr, dk, unp, ar, ad⟩ := env
    cases aes
    · simp [retrieveKeyWin] at h
      simp_all
    · cases dk with
      | none =>
        simp [retrieveKeyWin] at h
        simp_all
      | some device =>
        cases hu : unp device (buildEntropy vs vend (featureSignature feat) usr) with
        | none =>
          simp [retrieveKeyWin, hu] at h
          simp_all
        | some keykey =>
          cases har : findLicenseKeyE ar with
          | error e =>
            simp [retrieveKeyWin, hu, har] at h
            rcases findLicenseKeyE_error ar e har with rfl | rfl <;>
              simp_all
          | ok wrapped =>
            simp [retrieveKeyWin, hu, har] at h
            exact absurd h (finalize_not_adept _ _ m)

/-- C8 witness: with the PyCrypto import failed and every other facility
also failing, the result is exactly the fixed PyCrypto `ADEPTError`. -/
theorem C8_error_family_witness :
    retrieveKeyWin envNoAes = Except.error (PyErr.adept pycryptoMsg) :=
  C8_error_family.1 envNoAes rfl

end AdeKey
